import Mathlib

/-!
Verification development for the document ingestion and classification
service.  The Python source (receiver_service.py, orchestrator_service.py,
extractor_service.py, models.py) is shallowly embedded below: pure helpers
become Lean functions, the database and the local staging directory become
explicit state threaded through the pipeline functions, and Python
exceptions become `Except` / `Option` results.
-/

/-! ## String helpers mirroring the Python primitives used by the source -/

/-- Python `str.lower()` (ASCII case folding, which covers every string the
source compares). -/
def pyLower (s : String) : String := String.mk (s.toList.map Char.toLower)

/-- Python `s.startswith(p)`. -/
def pyStartsWith (s p : String) : Bool := p.toList.isPrefixOf s.toList

/-- Python `sub in s` (substring containment). -/
def containsSubstr (s sub : String) : Bool :=
  (List.range (s.toList.length + 1)).any
    (fun i => sub.toList.isPrefixOf (s.toList.drop i))

/-- Index of the last occurrence of `c` in `cs`, if any. -/
def lastIndexOf (cs : List Char) (c : Char) : Option Nat :=
  (List.range cs.length).foldl
    (fun acc i => if cs.getD i ' ' = c then some i else acc) none

/-- Python `os.path.splitext(p)[1]`: the extension starting at the last dot,
provided that dot lies inside the basename and is preceded there by some
non-dot character; otherwise the empty string. -/
def splitextExt (p : String) : String :=
  let cs := p.toList
  let fstart := match lastIndexOf cs '/' with
    | none => 0
    | some s => s + 1
  match lastIndexOf cs '.' with
  | none => ""
  | some d =>
    if (List.range' fstart (d - fstart)).any (fun i => cs.getD i '.' ≠ '.')
    then String.mk (cs.drop d) else ""

/-- Python `os.path.basename(p)`: the part after the last `/`. -/
def basename (p : String) : String :=
  match lastIndexOf p.toList '/' with
  | none => p
  | some i => String.mk (p.toList.drop (i + 1))

/-- Whitespace as stripped by Python `str.strip()` (the characters the
source's inputs can contain). -/
def wsChar (c : Char) : Bool := c.isWhitespace

/-- Drop trailing whitespace from a character list. -/
def rtrimList (cs : List Char) : List Char :=
  (cs.reverse.dropWhile wsChar).reverse

/-- Python `str.strip()` on the character list: drop trailing, then leading
whitespace. -/
def pyStripList (cs : List Char) : List Char :=
  (rtrimList cs).dropWhile wsChar

/-- Python `str.strip()`. -/
def pyStrip (s : String) : String := String.mk (pyStripList s.toList)

/-! ## TypeClassifier: the two classification entry points

`receiver_get_generic_doc_type` embeds `ReceiverService.get_generic_doc_type`
(receiver_service.py, blob-name based).  `orchestrator_get_generic_doc_type`
embeds the module-level `get_generic_doc_type` of orchestrator_service.py
(MIME-type based, with filename fallback). -/

/-- Extension table of `ReceiverService.get_generic_doc_type`
(receiver_service.py lines 30-41): note `.txt` maps to `EMAIL`. -/
def receiverExtensionMapping : List (String × String) :=
  [(".pdf", "PDF"), (".doc", "WORD"), (".docx", "WORD"), (".txt", "EMAIL"),
   (".jpg", "IMAGE"), (".jpeg", "IMAGE"), (".png", "IMAGE"), (".gif", "IMAGE"),
   (".jfif", "IMAGE"), (".eml", "EMAIL")]

/-- Extension table of orchestrator_service.py lines 64-75: note `.txt`
maps to `TEXT`. -/
def orchestratorExtensionMapping : List (String × String) :=
  [(".pdf", "PDF"), (".doc", "WORD"), (".docx", "WORD"), (".txt", "TEXT"),
   (".jpg", "IMAGE"), (".jpeg", "IMAGE"), (".png", "IMAGE"), (".gif", "IMAGE"),
   (".jfif", "IMAGE"), (".eml", "EMAIL")]

/-- Python `mapping.get(ext, 'OTHER')`. -/
def lookupOr (m : List (String × String)) (k dflt : String) : String :=
  match m.find? (fun kv => kv.1 = k) with
  | some kv => kv.2
  | none => dflt

/-- Embeds `ReceiverService.get_generic_doc_type(blob_name)`: lowercase the name,
take its extension, look it up in the table, default `OTHER`. -/
def receiver_get_generic_doc_type (blob_name : String) : String :=
  lookupOr receiverExtensionMapping (splitextExt (pyLower blob_name)) "OTHER"

/-- Truthiness of Python `filename and filename.startswith('Email_')` for an
optional filename. -/
def filenameHasEmailMark (filename : Option String) : Bool :=
  match filename with
  | none => false
  | some f => !(f = "") && pyStartsWith f "Email_"

/-- Truthiness of Python `filename` (non-None and non-empty). -/
def filenamePresent (filename : Option String) : Bool :=
  match filename with
  | none => false
  | some f => !(f = "")

/-- The module-level `get_generic_doc_type(mime_type, filename)` of
orchestrator_service.py: resolution order exactly as in the source. -/
def orchestrator_get_generic_doc_type (mime_type : Option String)
    (filename : Option String) : String :=
  let mt := pyLower (mime_type.getD "")
  if mt = "email" || filenameHasEmailMark filename then "EMAIL"
  else if containsSubstr mt "pdf" then "PDF"
  else if (["word", "wordprocessing", "msword",
            "openxmlformats-officedocument.wordprocessingml"].any
            (fun w => containsSubstr mt w)) then "WORD"
  else if (["image/", "jpeg", "jpg", "png", "gif", "bmp", "tiff"].any
            (fun w => containsSubstr mt w)) then "IMAGE"
  else if containsSubstr mt "text/" || mt = "application/txt" then "TEXT"
  else if filenamePresent filename && (mt = "application/octet-stream" || mt = "") then
    lookupOr orchestratorExtensionMapping
      (splitextExt (pyLower (filename.getD ""))) "OTHER"
  else "OTHER"

/-- The six document kinds both classifiers draw from. -/
def docKinds : List String := ["PDF", "WORD", "IMAGE", "TEXT", "EMAIL", "OTHER"]

/-! ## Classifier lemmas -/

theorem lookupOr_eq_or_mem (m : List (String × String)) (k dflt : String) :
    lookupOr m k dflt = dflt ∨ ∃ kv ∈ m, lookupOr m k dflt = kv.2 := by
  unfold lookupOr
  cases h : m.find? (fun kv => kv.1 = k) with
  | none => exact Or.inl rfl
  | some kv => exact Or.inr ⟨kv, List.mem_of_find?_eq_some h, rfl⟩

theorem orchestratorLookup_mem_docKinds (k : String) :
    lookupOr orchestratorExtensionMapping k "OTHER" ∈ docKinds := by
  rcases lookupOr_eq_or_mem orchestratorExtensionMapping k "OTHER" with h | ⟨kv, hm, h⟩
  · rw [h]; decide
  · rw [h]
    simp only [orchestratorExtensionMapping, List.mem_cons, List.not_mem_nil, or_false] at hm
    rcases hm with h1 | h1 | h1 | h1 | h1 | h1 | h1 | h1 | h1 | h1 <;> subst h1 <;> decide

theorem startsWith_email_ne_empty (f : String)
    (h : pyStartsWith f "Email_" = true) : f ≠ "" := by
  intro hf
  subst hf
  exact absurd h (by decide)

theorem orch_email_mark (mime : Option String) (f : String)
    (hm : mime.getD "" = "") (hpre : pyStartsWith f "Email_" = true) :
    orchestrator_get_generic_doc_type mime (some f) = "EMAIL" := by
  have hf : f ≠ "" := startsWith_email_ne_empty f hpre
  unfold orchestrator_get_generic_doc_type filenameHasEmailMark
  rw [hm]
  simp [hpre, hf]


theorem orch_mime_pdf (f : Option String) (h : filenameHasEmailMark f = false) :
    orchestrator_get_generic_doc_type (some "application/pdf") f = "PDF" := by
  unfold orchestrator_get_generic_doc_type
  dsimp only
  rw [h, Bool.or_false]
  rw [if_neg (by decide)]
  rw [if_pos (by decide)]

theorem orch_mime_jpeg (f : Option String) (h : filenameHasEmailMark f = false) :
    orchestrator_get_generic_doc_type (some "image/jpeg") f = "IMAGE" := by
  unfold orchestrator_get_generic_doc_type
  dsimp only
  rw [h, Bool.or_false]
  rw [if_neg (by decide), if_neg (by decide), if_neg (by decide), if_pos (by decide)]

theorem orch_total (mt f : Option String) :
    orchestrator_get_generic_doc_type mt f ∈ docKinds := by
  unfold orchestrator_get_generic_doc_type
  dsimp only
  split
  · decide
  split
  · decide
  split
  · decide
  split
  · decide
  split
  · decide
  split
  · exact orchestratorLookup_mem_docKinds _
  · decide

/-- C5 counterexample: the claim states `classify("application/pdf", anything)
== PDF`, but the `Email_` filename rule precedes every MIME rule, so with
filename `"Email_1.pdf"` the classifier returns `EMAIL`, not `PDF`. -/
theorem C5_counterexample_email_beats_pdf :
    orchestrator_get_generic_doc_type (some "application/pdf") (some "Email_1.pdf") = "EMAIL"
    ∧ orchestrator_get_generic_doc_type (some "application/pdf") (some "Email_1.pdf") ≠ "PDF" := by
  decide

/-- C5 (amended): the MIME-based classifier is total and returns one of the
six fixed kinds; `classify("application/pdf", f) == PDF` and
`classify("image/jpeg", f) == IMAGE` hold for every filename `f` that does
not trigger the earlier `Email_`-prefix rule; the three remaining concrete
identities hold as stated. -/
theorem C5_classifier_contract :
    (∀ mt f, orchestrator_get_generic_doc_type mt f ∈ docKinds)
    ∧ (∀ f, filenameHasEmailMark f = false →
        orchestrator_get_generic_doc_type (some "application/pdf") f = "PDF"
        ∧ orchestrator_get_generic_doc_type (some "image/jpeg") f = "IMAGE")
    ∧ orchestrator_get_generic_doc_type (some "application/octet-stream") (some "report.docx") = "WORD"
    ∧ orchestrator_get_generic_doc_type (some "application/octet-stream") (some "notes.xyz") = "OTHER"
    ∧ orchestrator_get_generic_doc_type none (some "Email_123.txt") = "EMAIL" := by
  refine ⟨orch_total, fun f h => ⟨orch_mime_pdf f h, orch_mime_jpeg f h⟩, by decide, by decide, by decide⟩

/-- C5 witness: instantiating the amended contract at concrete inputs. -/
theorem C5_classifier_contract_witness :
    filenameHasEmailMark (some "report.pdf") = false
    ∧ orchestrator_get_generic_doc_type (some "application/pdf") (some "report.pdf") = "PDF" :=
  ⟨by decide, (C5_classifier_contract.2.1 (some "report.pdf") (by decide)).1⟩

/-- C9: the blob-name classifier is the bare extension table (no `Email_`
prefix rule), so on every `Email_`-prefixed filename whose extension maps to
a kind other than `EMAIL`, it disagrees with the MIME-based classifier,
which (given an absent or empty MIME type) returns `EMAIL`. -/
theorem C9_classifiers_disagree_on_email_mark (f : String)
    (hpre : pyStartsWith f "Email_" = true)
    (hne : receiver_get_generic_doc_type f ≠ "EMAIL") :
    receiver_get_generic_doc_type f
        = lookupOr receiverExtensionMapping (splitextExt (pyLower f)) "OTHER"
    ∧ orchestrator_get_generic_doc_type none (some f) = "EMAIL"
    ∧ orchestrator_get_generic_doc_type (some "") (some f) = "EMAIL"
    ∧ receiver_get_generic_doc_type f ≠ orchestrator_get_generic_doc_type none (some f) := by
  refine ⟨rfl, orch_email_mark none f rfl hpre, orch_email_mark (some "") f rfl hpre, ?_⟩
  rw [orch_email_mark none f rfl hpre]
  exact hne

/-- C9 witness: `"Email_1.pdf"` classifies as `PDF` by extension but as
`EMAIL` by the MIME-based classifier. -/
theorem C9_witness :
    receiver_get_generic_doc_type "Email_1.pdf" = "PDF"
    ∧ orchestrator_get_generic_doc_type none (some "Email_1.pdf") = "EMAIL" :=
  ⟨by decide,
   (C9_classifiers_disagree_on_email_mark "Email_1.pdf" (by decide) (by decide)).2.1⟩

/-- C10: the MIME-based classifier depends on the MIME type only through its
lowercase form (case-insensitive), while the `Email_` prefix test on the
filename is case-sensitive: with no MIME type, `Email_`-prefixed names give
`EMAIL` but `"email_1.txt"` falls through to the extension table giving
`TEXT`. -/
theorem C10_mime_case_insensitive_email_mark_case_sensitive :
    (∀ m₁ m₂ f, pyLower m₁ = pyLower m₂ →
        orchestrator_get_generic_doc_type (some m₁) f
          = orchestrator_get_generic_doc_type (some m₂) f)
    ∧ (∀ f, pyStartsWith f "Email_" = true →
        orchestrator_get_generic_doc_type none (some f) = "EMAIL")
    ∧ orchestrator_get_generic_doc_type none (some "email_1.txt") = "TEXT" := by
  refine ⟨?_, fun f h => orch_email_mark none f rfl h, by decide⟩
  intro m₁ m₂ f h
  unfold orchestrator_get_generic_doc_type
  dsimp only [Option.getD]
  rw [h]

/-- C10 witness: uppercase MIME type classifies like its lowercase form, and
`"Email_1.txt"` (capital E) classifies as `EMAIL`. -/
theorem C10_witness :
    orchestrator_get_generic_doc_type (some "APPLICATION/PDF") none
      = orchestrator_get_generic_doc_type (some "application/pdf") none
    ∧ orchestrator_get_generic_doc_type none (some "Email_1.txt") = "EMAIL" :=
  ⟨C10_mime_case_insensitive_email_mark_case_sensitive.1 "APPLICATION/PDF" "application/pdf"
      none (by decide),
   C10_mime_case_insensitive_email_mark_case_sensitive.2.1 "Email_1.txt" (by decide)⟩

/-! ## ExtractionStrategy set (extractor_service.py)

A downloaded local file is modelled by the outcome of each parsing library
call the strategies make on it: `none` means that call raises. -/

/-- Outcomes of the parsing libraries on one staged local file:
`pdfParse` is `PyPDF2.PdfReader` (pages, each page's `extract_text()` either
raising (`none`) or returning text), `wordParse` is `docx.Document`
(paragraph texts), `imageOcr` is `Image.open` + `pytesseract`, and
`readText` is `open(path).read()`. -/
structure LocalFile where
  pdfParse : Option (List (Option String))
  wordParse : Option (List String)
  imageOcr : Option String
  readText : Option String

/-- One iteration of the page loop in `extract_text_from_pdf`
(extractor_service.py lines 109-119): a raising page contributes nothing;
a page whose text strips to empty is skipped; otherwise the page text plus
a newline is appended. -/
def pdfPageStep (acc : String) (p : Option String) : String :=
  match p with
  | none => acc
  | some t => if pyStrip t ≠ "" then acc ++ t ++ "\n" else acc

/-- Embeds `ExtractorService.extract_text_from_pdf`: empty string when the file
cannot be opened or parsed, otherwise the page-loop accumulation followed by
Python `str.strip()`. -/
def extract_text_from_pdf (pdfParse : Option (List (Option String))) : String :=
  match pdfParse with
  | none => ""
  | some pages => pyStrip (pages.foldl pdfPageStep "")

/-- Embeds `ExtractorService.extract_text_from_word`: no exception handling in the
source, so a raising `docx.Document` propagates; otherwise paragraph texts
are concatenated with no separator. -/
def extract_text_from_word (wordParse : Option (List String)) : Except String String :=
  match wordParse with
  | none => Except.error "WordDocument raised"
  | some paras => Except.ok (paras.foldl (fun acc p => acc ++ p) "")

/-- Embeds `ExtractorService.extract_text_from_image`: any decode or OCR failure is
caught and yields the empty string. -/
def extract_text_from_image (imageOcr : Option String) : String :=
  match imageOcr with
  | none => ""
  | some t => t

/-- The inline `open(local_file_path).read()` of the EMAIL branch
(extractor_service.py lines 70-71): no exception handling, a failing read
propagates. -/
def readLocalFileText (readText : Option String) : Except String String :=
  match readText with
  | none => Except.error "file read raised"
  | some t => Except.ok t

/-- The extraction dispatch of `process_session_documents`
(extractor_service.py lines 62-73): strategies selected purely from
`doc_type`, everything else falling to the empty string. -/
def extractTextForType (doc_type : String) (file : LocalFile) : Except String String :=
  if doc_type = "PDF" then Except.ok (extract_text_from_pdf file.pdfParse)
  else if doc_type = "WORD" then extract_text_from_word file.wordParse
  else if doc_type = "IMAGE" then Except.ok (extract_text_from_image file.imageOcr)
  else if doc_type = "EMAIL" then readLocalFileText file.readText
  else Except.ok ""

/-- A file on which every parsing library call raises. -/
def corruptFile : LocalFile := ⟨none, none, none, none⟩

/-- C2 counterexample: the WORD strategy has no exception handling, so on a
file whose `docx.Document` constructor raises it propagates the exception
instead of returning the empty string. -/
theorem C2_counterexample_word_raises :
    extractTextForType "WORD" corruptFile = Except.error "WordDocument raised" := by
  rfl

/-- C2 (amended): the PDF, IMAGE and OTHER strategies never raise and yield
the empty string on internal failure, but the WORD strategy propagates a
failing document parse and the TEXT/EMAIL raw read propagates a failing
file read. -/
theorem C2_strategy_failure_isolation (file : LocalFile) :
    (∃ t, extractTextForType "PDF" file = Except.ok t)
    ∧ (∃ t, extractTextForType "IMAGE" file = Except.ok t)
    ∧ extractTextForType "OTHER" file = Except.ok ""
    ∧ (file.pdfParse = none → extractTextForType "PDF" file = Except.ok "")
    ∧ (file.imageOcr = none → extractTextForType "IMAGE" file = Except.ok "")
    ∧ (file.wordParse = none → extractTextForType "WORD" file = Except.error "WordDocument raised")
    ∧ (file.readText = none → extractTextForType "EMAIL" file = Except.error "file read raised") := by
  obtain ⟨pp, wp, io, rt⟩ := file
  refine ⟨⟨_, rfl⟩, ⟨_, rfl⟩, rfl, ?_, ?_, ?_, ?_⟩ <;>
    rintro rfl <;> rfl

/-- C2 witness: the amended contract evaluated on the all-raising file. -/
theorem C2_strategy_failure_isolation_witness :
    extractTextForType "PDF" corruptFile = Except.ok ""
    ∧ extractTextForType "WORD" corruptFile = Except.error "WordDocument raised" :=
  ⟨(C2_strategy_failure_isolation corruptFile).2.2.2.1 rfl,
   (C2_strategy_failure_isolation corruptFile).2.2.2.2.2.1 rfl⟩

/-- Joining page texts with newline separators. -/
def newlineJoin : List String → String
  | [] => ""
  | [t] => t
  | t :: ts => t ++ "\n" ++ newlineJoin ts

/-- The PDF result as C6 words it: page texts (a corrupt page contributing
nothing) concatenated in page order separated by newlines, with trailing
whitespace trimmed. -/
def claimedPdfExtract (pdfParse : Option (List (Option String))) : String :=
  match pdfParse with
  | none => ""
  | some pages => String.mk (rtrimList (newlineJoin (pages.filterMap id)).toList)

theorem rtrimList_append_ws (cs : List Char) (c : Char) (h : wsChar c = true) :
    rtrimList (cs ++ [c]) = rtrimList cs := by
  simp [rtrimList, List.dropWhile_cons, h]

theorem pyStrip_append_newline (s : String) : pyStrip (s ++ "\n") = pyStrip s := by
  unfold pyStrip pyStripList
  have h : (s ++ "\n").toList = s.toList ++ ['\n'] := String.data_append s "\n"
  rw [h, rtrimList_append_ws s.toList '\n' (by decide)]

theorem length_dropWhile_le' (p : Char → Bool) (l : List Char) :
    (l.dropWhile p).length ≤ l.length :=
  ((List.dropWhile_sublist p : (l.dropWhile p).Sublist l)).length_le

theorem strip_fixed_parts (cs : List Char) (h : pyStripList cs = cs) :
    cs.dropWhile wsChar = cs ∧ rtrimList cs = cs := by
  have h1 : (rtrimList cs).length ≤ cs.length := by
    unfold rtrimList
    calc ((cs.reverse.dropWhile wsChar).reverse).length
        = (cs.reverse.dropWhile wsChar).length := List.length_reverse _
      _ ≤ cs.reverse.length := length_dropWhile_le' _ _
      _ = cs.length := List.length_reverse _
  have h2 : cs.length ≤ (rtrimList cs).length := by
    conv_lhs => rw [← h]
    unfold pyStripList
    exact length_dropWhile_le' _ _
  have hlen : (rtrimList cs).length = cs.length := le_antisymm h1 h2
  have hrt : rtrimList cs = cs := by
    have hsub : List.Sublist (cs.reverse.dropWhile wsChar) cs.reverse :=
      List.dropWhile_sublist wsChar
    have heq : cs.reverse.dropWhile wsChar = cs.reverse := by
      refine hsub.eq_of_length ?_
      calc (cs.reverse.dropWhile wsChar).length
          = ((cs.reverse.dropWhile wsChar).reverse).length := (List.length_reverse _).symm
        _ = (rtrimList cs).length := rfl
        _ = cs.length := hlen
        _ = cs.reverse.length := (List.length_reverse _).symm
    unfold rtrimList
    rw [heq, List.reverse_reverse]
  refine ⟨?_, hrt⟩
  have h3 := h
  unfold pyStripList at h3
  rwa [hrt] at h3

theorem dropWhile_append_of_fixed (p : Char → Bool) (as bs : List Char)
    (h : as.dropWhile p = as) (hne : as ≠ []) :
    (as ++ bs).dropWhile p = as ++ bs := by
  cases as with
  | nil => exact absurd rfl hne
  | cons a as' =>
    have hpa : p a = false := by
      by_contra hcon
      have hpa : p a = true := by
        cases hb : p a with
        | false => exact absurd hb hcon
        | true => rfl
      rw [List.dropWhile_cons_of_pos hpa] at h
      have := length_dropWhile_le' p as'
      rw [h] at this
      simp at this
    rw [List.cons_append, List.dropWhile_cons_of_neg (by simp [hpa])]

theorem rtrimList_append_of_fixed (as bs : List Char)
    (h : rtrimList bs = bs) (hne : bs ≠ []) :
    rtrimList (as ++ bs) = as ++ bs := by
  have hrev : bs.reverse.dropWhile wsChar = bs.reverse := by
    have := congrArg List.reverse h
    unfold rtrimList at this
    rw [List.reverse_reverse] at this
    exact this
  have hrevne : bs.reverse ≠ [] := by
    intro hc
    exact hne (by simpa using congrArg List.reverse hc)
  unfold rtrimList
  rw [List.reverse_append, dropWhile_append_of_fixed wsChar bs.reverse as.reverse hrev hrevne,
    List.reverse_append, List.reverse_reverse, List.reverse_reverse]

theorem pdfPageStep_acc (a : String) (p : Option String) :
    pdfPageStep a p = a ++ pdfPageStep "" p := by
  cases p with
  | none => exact (String.append_empty a).symm
  | some t =>
    show (if pyStrip t ≠ "" then a ++ t ++ "\n" else a)
        = a ++ (if pyStrip t ≠ "" then "" ++ t ++ "\n" else "")
    split
    · rw [String.empty_append, String.append_assoc]
    · exact (String.append_empty a).symm

theorem foldl_pdfPageStep_acc (ps : List (Option String)) (a : String) :
    List.foldl pdfPageStep a ps = a ++ List.foldl pdfPageStep "" ps := by
  induction ps generalizing a with
  | nil => exact (String.append_empty a).symm
  | cons p ps ih =>
    rw [List.foldl_cons, List.foldl_cons, ih (pdfPageStep a p), ih (pdfPageStep "" p),
      pdfPageStep_acc a p, String.append_assoc]

theorem foldl_pdfPageStep_clean (ts : List String) (hne : ts ≠ [])
    (hclean : ∀ t ∈ ts, pyStrip t = t ∧ t ≠ "") :
    List.foldl pdfPageStep "" (ts.map some) = newlineJoin ts ++ "\n" := by
  induction ts with
  | nil => exact absurd rfl hne
  | cons t rest ih =>
    obtain ⟨hs, hn⟩ := hclean t (List.mem_cons_self t rest)
    have hstep : pdfPageStep "" (some t) = t ++ "\n" := by
      show (if pyStrip t ≠ "" then "" ++ t ++ "\n" else "") = t ++ "\n"
      rw [if_pos (by rw [hs]; exact hn), String.empty_append]
    cases rest with
    | nil =>
      show List.foldl pdfPageStep (pdfPageStep "" (some t)) [] = newlineJoin [t] ++ "\n"
      rw [List.foldl_nil, hstep]
      rfl
    | cons r rs =>
      have ih' := ih (by simp) (fun u hu => hclean u (List.mem_cons_of_mem t hu))
      show List.foldl pdfPageStep (pdfPageStep "" (some t)) ((r :: rs).map some)
          = newlineJoin (t :: r :: rs) ++ "\n"
      rw [foldl_pdfPageStep_acc _ (pdfPageStep "" (some t)), hstep, ih']
      show (t ++ "\n") ++ (newlineJoin (r :: rs) ++ "\n")
          = (t ++ "\n" ++ newlineJoin (r :: rs)) ++ "\n"
      simp [String.append_assoc]

theorem newlineJoin_clean (ts : List String) (hne : ts ≠ [])
    (hclean : ∀ t ∈ ts, pyStrip t = t ∧ t ≠ "") :
    pyStrip (newlineJoin ts) = newlineJoin ts ∧ newlineJoin ts ≠ "" := by
  induction ts with
  | nil => exact absurd rfl hne
  | cons t rest ih =>
    obtain ⟨hs, hn⟩ := hclean t (List.mem_cons_self t rest)
    have hdata : pyStripList t.data = t.data := congrArg String.data hs
    obtain ⟨hdrop, _⟩ := strip_fixed_parts t.data hdata
    have htne : t.data ≠ [] := by
      intro hc
      exact hn (String.ext hc)
    cases rest with
    | nil => exact ⟨hs, hn⟩
    | cons r rs =>
      obtain ⟨ihs, ihn⟩ := ih (by simp) (fun u hu => hclean u (List.mem_cons_of_mem t hu))
      have hJdata : pyStripList (newlineJoin (r :: rs)).data = (newlineJoin (r :: rs)).data :=
        congrArg String.data ihs
      obtain ⟨_, hJrt⟩ := strip_fixed_parts _ hJdata
      have hJne : (newlineJoin (r :: rs)).data ≠ [] := by
        intro hc
        exact ihn (String.ext hc)
      have hjoin : newlineJoin (t :: r :: rs) = t ++ "\n" ++ newlineJoin (r :: rs) := rfl
      have hlist : (newlineJoin (t :: r :: rs)).data
          = (t.data ++ ['\n']) ++ (newlineJoin (r :: rs)).data := by
        rw [hjoin, String.data_append, String.data_append]
      constructor
      · unfold pyStrip pyStripList
        simp only [String.toList]
        rw [hlist, rtrimList_append_of_fixed _ _ hJrt hJne, List.append_assoc,
          dropWhile_append_of_fixed wsChar _ _ hdrop htne, ← List.append_assoc, ← hlist]
      · intro hc
        have hd := congrArg String.data hc
        rw [hlist] at hd
        simp at hd

/-- C6 counterexample: the claim says page texts are concatenated and only
trailing whitespace trimmed, but the source's final `text.strip()` trims
leading whitespace as well: a one-page PDF whose page text is `" a"` yields
`"a"`, not `" a"`. -/
theorem C6_counterexample_strip_both_ends :
    extract_text_from_pdf (some [some " a"]) = "a"
    ∧ claimedPdfExtract (some [some " a"]) = " a"
    ∧ extract_text_from_pdf (some [some " a"]) ≠ claimedPdfExtract (some [some " a"]) := by
  decide

/-- C6 (amended): an unopenable PDF yields `""`; a raising page contributes
no text and later pages are still processed; pages whose text is nonblank
with no leading or trailing whitespace are concatenated in page order
separated by newlines (the final strip trims BOTH ends, and whitespace-only
pages are dropped); one raising page plus one readable clean page yields
exactly the readable page's text. -/
theorem C6_pdf_page_tolerance :
    extract_text_from_pdf none = ""
    ∧ (∀ pages, extract_text_from_pdf (some (none :: pages)) = extract_text_from_pdf (some pages))
    ∧ (∀ ts, ts ≠ [] → (∀ t ∈ ts, pyStrip t = t ∧ t ≠ "") →
        extract_text_from_pdf (some (ts.map some)) = newlineJoin ts)
    ∧ (∀ t, pyStrip t = t → t ≠ "" → extract_text_from_pdf (some [none, some t]) = t) := by
  refine ⟨rfl, fun pages => rfl, ?_, ?_⟩
  · intro ts hne hclean
    show pyStrip (List.foldl pdfPageStep "" (ts.map some)) = newlineJoin ts
    rw [foldl_pdfPageStep_clean ts hne hclean, pyStrip_append_newline,
      (newlineJoin_clean ts hne hclean).1]
  · intro t hs hn
    show pyStrip (List.foldl pdfPageStep "" [none, some t]) = t
    have hstep : List.foldl pdfPageStep "" [none, some t] = t ++ "\n" := by
      show (if pyStrip t ≠ "" then "" ++ t ++ "\n" else "") = t ++ "\n"
      rw [if_pos (by rw [hs]; exact hn), String.empty_append]
    rw [hstep, pyStrip_append_newline, hs]

/-- C6 witness: the amended statement evaluated on concrete pages. -/
theorem C6_pdf_page_tolerance_witness :
    extract_text_from_pdf (some (["alpha", "beta"].map some)) = newlineJoin ["alpha", "beta"]
    ∧ extract_text_from_pdf (some [none, some "page"]) = "page" :=
  ⟨C6_pdf_page_tolerance.2.2.1 ["alpha", "beta"] (by simp) (by decide),
   C6_pdf_page_tolerance.2.2.2 "page" (by decide) (by decide)⟩

/-! ## Pipeline (ExtractorService.process_session_documents)

The database table and the local `temp` staging directory become explicit
state; the Azure download collaborator is a function from blob path to the
downloaded file's parse outcomes (`none` = the download raises). -/

/-- One row of the `documents` table (models.py). -/
structure Document where
  doc_id : String
  doc_name : String
  doc_type : String
  status : String
  azure_blob_url : String
  session_id : String
  extracted_text : Option String
  entity_list : Option String
deriving DecidableEq, Repr

/-- Embeds `ExtractorService.refine_text_using_llm`: the identity stub. -/
def refine_text_using_llm (text : String) : String := text

/-- Embeds `ExtractorService.extract_entities_using_llm`: the stub serializing the
fixed sample entity pairs, one `name: value` per line. -/
def extract_entities_using_llm (_text : String) : String :=
  String.intercalate "\n"
    ([("Person", "John Doe"), ("Organization", "Acme Inc.")].map
      (fun e => e.1 ++ ": " ++ e.2))

/-- Database rows plus the contents of the local `temp` staging directory. -/
structure PipelineState where
  docs : List Document
  staging : List String
deriving DecidableEq, Repr

/-- Result of one processing run: the final state, and `some message` when
the run raised (the outer `except` re-raises). -/
structure RunOutcome where
  finalState : PipelineState
  error : Option String
deriving DecidableEq, Repr

/-- Python `open(local_file_path, "wb")` creates (or overwrites) the staged file
before the download is attempted. -/
def stageFile (staging : List String) (name : String) : List String :=
  if name ∈ staging then staging else staging ++ [name]

/-- Models `db.commit()` after mutating one queried row: replace the row with the
matching primary key. -/
def commitDocument (docs : List Document) (d : Document) : List Document :=
  docs.map (fun x => if x.doc_id = d.doc_id then d else x)

/-- The per-document loop of `process_session_documents`
(extractor_service.py lines 52-87).  There is no per-document exception
handling in the source: the first failing step raises out of the loop into
the outer `except`, which re-raises, so the outcome carries an error and the
remaining documents are left untouched. -/
def processDocsLoop (download : String → Option LocalFile) (sid : String) :
    List Document → PipelineState → RunOutcome
  | [], st => ⟨st, none⟩
  | doc :: rest, st =>
    let st1 : PipelineState := ⟨st.docs, stageFile st.staging doc.doc_name⟩
    match download (sid ++ "/" ++ doc.doc_name) with
    | none => ⟨st1, some ("Failed to process session: download of " ++ doc.doc_name)⟩
    | some file =>
      match extractTextForType doc.doc_type file with
      | Except.error e => ⟨st1, some ("Failed to process session: " ++ e)⟩
      | Except.ok text =>
        let refined := if text ≠ "" then refine_text_using_llm text else ""
        let entities :=
          if text ≠ "" then extract_entities_using_llm (refine_text_using_llm text) else ""
        processDocsLoop download sid rest
          ⟨commitDocument st1.docs
            { doc with extracted_text := some refined, entity_list := some entities },
           st1.staging⟩

/-- Embeds `ExtractorService.process_session_documents(session_id)`: query the
session's documents, then run the loop. -/
def process_session_documents (download : String → Option LocalFile)
    (sid : String) (st : PipelineState) : RunOutcome :=
  processDocsLoop download sid (st.docs.filter (fun d => d.session_id = sid)) st

/-- The `finally` cleanup in `main` (extractor_service.py lines 197-206):
empties the `temp` directory; it runs only at program exit, after the
interactive loop, never inside a session run. -/
def mainCleanup (st : PipelineState) : PipelineState := ⟨st.docs, []⟩

/-- Fixture documents for concrete runs. -/
def docA : Document := ⟨"id1", "a.pdf", "PDF", "RECEIVED", "url1", "s1", none, none⟩

def docB : Document := ⟨"id2", "b.pdf", "PDF", "RECEIVED", "url2", "s1", none, none⟩

def docOther : Document := ⟨"id3", "notes.xyz", "OTHER", "RECEIVED", "url3", "s1", none, none⟩

/-- A download collaborator that always raises. -/
def failingDownload : String → Option LocalFile := fun _ => none

/-- A download collaborator that always succeeds, delivering a file every
parser raises on. -/
def corruptDownload : String → Option LocalFile := fun _ => some corruptFile

/-- C1 counterexample: with two queued documents where the first one's
download raises, the whole batch aborts with an error, the second document
is never processed (both rows are byte-for-byte unchanged), and no document
is marked `FAILED`. -/
theorem C1_counterexample_first_failure_aborts :
    (process_session_documents failingDownload "s1" ⟨[docA, docB], []⟩).error
      = some "Failed to process session: download of a.pdf"
    ∧ (process_session_documents failingDownload "s1" ⟨[docA, docB], []⟩).finalState.docs
      = [docA, docB]
    ∧ docA.status = "RECEIVED" ∧ docB.status = "RECEIVED"
    ∧ docB.extracted_text = none := by
  decide

/-- C1 (amended): the extraction pipeline has no per-document error
handling: as soon as any document's step fails (here, download), the run
aborts with an error, no later document is processed, no database row is
modified, and in particular the failing document is never marked `FAILED`. -/
theorem C1_failure_aborts_batch (download : String → Option LocalFile) (sid : String)
    (doc : Document) (rest : List Document) (st : PipelineState)
    (h : download (sid ++ "/" ++ doc.doc_name) = none) :
    (processDocsLoop download sid (doc :: rest) st).error
      = some ("Failed to process session: download of " ++ doc.doc_name)
    ∧ (processDocsLoop download sid (doc :: rest) st).finalState.docs = st.docs := by
  unfold processDocsLoop
  rw [h]
  exact ⟨rfl, rfl⟩

/-- C1 witness: the amended statement at a concrete failing batch. -/
theorem C1_failure_aborts_batch_witness :
    (processDocsLoop failingDownload "s1" [docA, docB] ⟨[docA, docB], []⟩).error
      = some ("Failed to process session: download of " ++ docA.doc_name)
    ∧ (processDocsLoop failingDownload "s1" [docA, docB] ⟨[docA, docB], []⟩).finalState.docs
      = [docA, docB] :=
  C1_failure_aborts_batch failingDownload "s1" docA [docB] ⟨[docA, docB], []⟩ rfl

/-- The dispatch falls through to the empty string for any kind outside the
four handled ones. -/
theorem extractTextForType_fallthrough (dt : String) (file : LocalFile)
    (h : dt ∉ (["PDF", "WORD", "IMAGE", "EMAIL"] : List String)) :
    extractTextForType dt file = Except.ok "" := by
  simp only [List.mem_cons, List.not_mem_nil, or_false, not_or] at h
  obtain ⟨h1, h2, h3, h4⟩ := h
  unfold extractTextForType
  rw [if_neg h1, if_neg h2, if_neg h3, if_neg h4]

/-- C3 counterexample: an `OTHER` document is persisted with empty text and
empty entity list and the run succeeds, but its status is left at its prior
value (`RECEIVED` here) — the pipeline never writes `PROCESSED`. -/
theorem C3_counterexample_status_not_processed :
    (process_session_documents corruptDownload "s1" ⟨[docOther], []⟩).error = none
    ∧ (process_session_documents corruptDownload "s1" ⟨[docOther], []⟩).finalState.docs
      = [{ docOther with extracted_text := some "", entity_list := some "" }]
    ∧ ({ docOther with extracted_text := some "", entity_list := some "" } : Document).status
      = "RECEIVED" := by
  decide

/-- C3 (amended): a document of unsupported kind (`OTHER`, or anything
outside PDF/WORD/IMAGE/EMAIL) is persisted with `extracted_text = ""` and
`entity_list = ""` (the serialized empty list), the refinement and
entity-extraction collaborators are skipped (the entity stub always returns
a non-empty string, so a persisted `""` proves it was not invoked), the run
continues normally — but the status is left at its prior value; no
`PROCESSED` status is ever written. -/
theorem C3_other_kind_persists_empty (download : String → Option LocalFile) (sid : String)
    (doc : Document) (st : PipelineState) (file : LocalFile)
    (hdl : download (sid ++ "/" ++ doc.doc_name) = some file)
    (hty : doc.doc_type ∉ (["PDF", "WORD", "IMAGE", "EMAIL"] : List String)) :
    processDocsLoop download sid [doc] st =
      ⟨⟨commitDocument st.docs { doc with extracted_text := some "", entity_list := some "" },
        stageFile st.staging doc.doc_name⟩, none⟩
    ∧ ({ doc with extracted_text := some "", entity_list := some "" } : Document).status
        = doc.status
    ∧ extract_entities_using_llm (refine_text_using_llm "") ≠ "" := by
  refine ⟨?_, rfl, by decide⟩
  unfold processDocsLoop
  rw [hdl]
  dsimp only
  rw [extractTextForType_fallthrough doc.doc_type file hty]
  rfl

/-- C3 witness: the amended statement at the concrete `OTHER` document. -/
theorem C3_other_kind_persists_empty_witness :
    processDocsLoop corruptDownload "s1" [docOther] ⟨[docOther], []⟩ =
      ⟨⟨commitDocument [docOther]
          { docOther with extracted_text := some "", entity_list := some "" },
        stageFile [] docOther.doc_name⟩, none⟩ :=
  (C3_other_kind_persists_empty corruptDownload "s1" docOther ⟨[docOther], []⟩ corruptFile
    rfl (by decide)).1

/-- C4 counterexample: a local file whose raw text reads as `"hello"` is
extracted verbatim under kind `EMAIL`, but under kind `TEXT` the dispatch
falls into the unsupported branch and yields the empty string. -/
theorem C4_counterexample_text_kind_not_read :
    extractTextForType "EMAIL" ⟨none, none, none, some "hello"⟩ = Except.ok "hello"
    ∧ extractTextForType "TEXT" ⟨none, none, none, some "hello"⟩ = Except.ok ""
    ∧ extractTextForType "TEXT" ⟨none, none, none, some "hello"⟩ ≠ Except.ok "hello" := by
  refine ⟨rfl, rfl, ?_⟩
  intro h
  exact absurd (Except.ok.inj h) (by decide)

/-- C4 (amended): only kind `EMAIL` reads the local file's raw contents
verbatim (no transformation); kind `TEXT` is not dispatched to the raw read
and always yields the empty string. -/
theorem C4_email_verbatim_text_unsupported (file : LocalFile) :
    (∀ s, file.readText = some s → extractTextForType "EMAIL" file = Except.ok s)
    ∧ extractTextForType "TEXT" file = Except.ok "" := by
  constructor
  · intro s h
    unfold extractTextForType readLocalFileText
    rw [if_neg (by decide), if_neg (by decide), if_neg (by decide), if_pos rfl, h]
  · rfl

/-- C4 witness: the amended statement at a concrete readable file. -/
theorem C4_email_verbatim_text_unsupported_witness :
    extractTextForType "EMAIL" ⟨none, none, none, some "hello"⟩ = Except.ok "hello" :=
  (C4_email_verbatim_text_unsupported ⟨none, none, none, some "hello"⟩).1 "hello" rfl

theorem processDocsLoop_cons_download_err (download : String → Option LocalFile)
    (sid : String) (doc : Document) (rest : List Document) (st : PipelineState)
    (hdl : download (sid ++ "/" ++ doc.doc_name) = none) :
    processDocsLoop download sid (doc :: rest) st =
      ⟨⟨st.docs, stageFile st.staging doc.doc_name⟩,
       some ("Failed to process session: download of " ++ doc.doc_name)⟩ := by
  unfold processDocsLoop
  rw [hdl]

theorem processDocsLoop_cons_extract_err (download : String → Option LocalFile)
    (sid : String) (doc : Document) (rest : List Document) (st : PipelineState)
    (file : LocalFile) (e : String)
    (hdl : download (sid ++ "/" ++ doc.doc_name) = some file)
    (hex : extractTextForType doc.doc_type file = Except.error e) :
    processDocsLoop download sid (doc :: rest) st =
      ⟨⟨st.docs, stageFile st.staging doc.doc_name⟩,
       some ("Failed to process session: " ++ e)⟩ := by
  unfold processDocsLoop
  rw [hdl]
  dsimp only
  rw [hex]

theorem processDocsLoop_cons_ok (download : String → Option LocalFile)
    (sid : String) (doc : Document) (rest : List Document) (st : PipelineState)
    (file : LocalFile) (text : String)
    (hdl : download (sid ++ "/" ++ doc.doc_name) = some file)
    (hex : extractTextForType doc.doc_type file = Except.ok text) :
    processDocsLoop download sid (doc :: rest) st =
      processDocsLoop download sid rest
        ⟨commitDocument st.docs
          { doc with
            extracted_text := some (if text ≠ "" then refine_text_using_llm text else ""),
            entity_list := some (if text ≠ ""
              then extract_entities_using_llm (refine_text_using_llm text) else "") },
         stageFile st.staging doc.doc_name⟩ := by
  conv_lhs => unfold processDocsLoop
  rw [hdl]
  dsimp only
  rw [hex]

theorem mem_stageFile_self (l : List String) (n : String) : n ∈ stageFile l n := by
  unfold stageFile
  split
  · assumption
  · exact List.mem_append_right l (List.mem_singleton.mpr rfl)

theorem mem_stageFile_of_mem (l : List String) (n x : String) (h : x ∈ l) :
    x ∈ stageFile l n := by
  unfold stageFile
  split
  · exact h
  · exact List.mem_append_left _ h

theorem processDocsLoop_staging_mono (download : String → Option LocalFile) (sid : String)
    (docs : List Document) (st : PipelineState) (x : String) (h : x ∈ st.staging) :
    x ∈ (processDocsLoop download sid docs st).finalState.staging := by
  induction docs generalizing st with
  | nil => exact h
  | cons doc rest ih =>
    have h1 : x ∈ stageFile st.staging doc.doc_name := mem_stageFile_of_mem _ _ _ h
    cases hdl : download (sid ++ "/" ++ doc.doc_name) with
    | none => rw [processDocsLoop_cons_download_err download sid doc rest st hdl]; exact h1
    | some file =>
      cases hex : extractTextForType doc.doc_type file with
      | error e => rw [processDocsLoop_cons_extract_err download sid doc rest st file e hdl hex]; exact h1
      | ok text =>
        rw [processDocsLoop_cons_ok download sid doc rest st file text hdl hex]
        exact ih _ h1

theorem processDocsLoop_stages_all (download : String → Option LocalFile) (sid : String)
    (docs : List Document) (st : PipelineState)
    (hok : (processDocsLoop download sid docs st).error = none) :
    ∀ d ∈ docs, d.doc_name ∈ (processDocsLoop download sid docs st).finalState.staging := by
  induction docs generalizing st with
  | nil => intro d hd; exact absurd hd (List.not_mem_nil d)
  | cons doc rest ih =>
    intro d hd
    cases hdl : download (sid ++ "/" ++ doc.doc_name) with
    | none =>
      rw [processDocsLoop_cons_download_err download sid doc rest st hdl] at hok
      exact absurd hok (by simp)
    | some file =>
      cases hex : extractTextForType doc.doc_type file with
      | error e =>
        rw [processDocsLoop_cons_extract_err download sid doc rest st file e hdl hex] at hok
        exact absurd hok (by simp)
      | ok text =>
        rw [processDocsLoop_cons_ok download sid doc rest st file text hdl hex] at hok ⊢
        rcases List.mem_cons.mp hd with rfl | hdrest
        · exact processDocsLoop_staging_mono download sid rest _ d.doc_name
            (mem_stageFile_self st.staging d.doc_name)
        · exact ih _ hok d hdrest

/-- C8 counterexample: after a fully successful single-document run the
staged file is still present in the `temp` directory — the run itself never
cleans the staging area. -/
theorem C8_counterexample_staging_persists :
    (process_session_documents corruptDownload "s1" ⟨[docA], []⟩).error = none
    ∧ (process_session_documents corruptDownload "s1" ⟨[docA], []⟩).finalState.staging
      = ["a.pdf"] := by
  decide

/-- C8 (amended): the staging directory is emptied only by the `finally`
cleanup of `main` at program exit, not by `processSession`: a completed run
leaves every processed document's file in the staging directory, and only
the subsequent exit-time cleanup empties it. -/
theorem C8_staging_cleaned_only_at_exit :
    (∀ st, (mainCleanup st).staging = [])
    ∧ (∀ (download : String → Option LocalFile) (sid : String) (st : PipelineState),
        (process_session_documents download sid st).error = none →
        ∀ d ∈ st.docs.filter (fun d => d.session_id = sid),
          d.doc_name ∈ (process_session_documents download sid st).finalState.staging) := by
  refine ⟨fun st => rfl, ?_⟩
  intro download sid st hok d hd
  exact processDocsLoop_stages_all download sid _ st hok d hd

/-- C8 witness: the concrete successful run leaves `"a.pdf"` staged, and the
exit-time cleanup empties the staging list. -/
theorem C8_staging_cleaned_only_at_exit_witness :
    "a.pdf" ∈ (process_session_documents corruptDownload "s1"
        ⟨[docA], []⟩).finalState.staging
    ∧ (mainCleanup (process_session_documents corruptDownload "s1"
        ⟨[docA], []⟩).finalState).staging = [] :=
  ⟨(show docA.doc_name ∈ _ from
      C8_staging_cleaned_only_at_exit.2 corruptDownload "s1" ⟨[docA], []⟩ rfl docA (by decide)),
   C8_staging_cleaned_only_at_exit.1 _⟩

/-! ## Ingestion (ReceiverService.process_session_documents)

The database is again a list of rows; blob listing order is the given list
order; `uuid.uuid4()` becomes a fresh-id counter and the blob URL an
explicit function of the blob name (both opaque to the idempotency
argument). -/

/-- Database rows plus the fresh-id counter standing in for `uuid.uuid4()`. -/
structure ReceiverState where
  docs : List Document
  nextId : Nat
deriving DecidableEq, Repr

/-- One result entry of the receiver loop (receiver_service.py
lines 80-118). -/
structure ReceiverResult where
  doc_id : String
  doc_name : String
  doc_type : String
  status : String
deriving DecidableEq, Repr

/-- The existence query (receiver_service.py lines 72-76): first row with
the same name, session and type. -/
def findExistingDocument (docs : List Document) (name sid ty : String) : Option Document :=
  docs.find? (fun d => d.doc_name = name ∧ d.session_id = sid ∧ d.doc_type = ty)

/-- Stand-in for `uuid.uuid4()`. -/
def freshDocId (n : Nat) : String := "doc-" ++ toString n

/-- One iteration of the receiver loop: report `exists` for a known
(name, session, type) triple, otherwise insert a fresh `RECEIVED` row and
report `success`. -/
def receiver_process_blob (sid : String) (st : ReceiverState) (blob_name : String) :
    ReceiverState × ReceiverResult :=
  let file_name := basename blob_name
  let doc_type := receiver_get_generic_doc_type file_name
  match findExistingDocument st.docs file_name sid doc_type with
  | some existing => (st, ⟨existing.doc_id, existing.doc_name, existing.doc_type, "exists"⟩)
  | none =>
    let doc_id := freshDocId st.nextId
    (⟨st.docs ++
        [⟨doc_id, file_name, doc_type, "RECEIVED", "https://blob/" ++ blob_name, sid, none, none⟩],
      st.nextId + 1⟩,
     ⟨doc_id, file_name, doc_type, "success"⟩)

/-- Embeds `ReceiverService.process_session_documents(session_id)` over the listed
blob names. -/
def receiver_process_session_documents (sid : String) :
    List String → ReceiverState → ReceiverState × List ReceiverResult
  | [], st => (st, [])
  | b :: rest, st =>
    let step := receiver_process_blob sid st b
    let tail := receiver_process_session_documents sid rest step.1
    (tail.1, step.2 :: tail.2)

theorem findExistingDocument_append_isSome (docs e : List Document) (name sid ty : String)
    (h : (findExistingDocument docs name sid ty).isSome = true) :
    (findExistingDocument (docs ++ e) name sid ty).isSome = true := by
  obtain ⟨d, hd⟩ := Option.isSome_iff_exists.mp h
  unfold findExistingDocument at hd ⊢
  rw [List.find?_append, hd, Option.or_some]
  rfl

theorem receiver_process_blob_docs_extension (sid : String) (st : ReceiverState)
    (b : String) :
    ∃ e, ((receiver_process_blob sid st b).1).docs = st.docs ++ e := by
  unfold receiver_process_blob
  dsimp only
  cases h : findExistingDocument st.docs (basename b) sid
      (receiver_get_generic_doc_type (basename b)) with
  | some d => exact ⟨[], (List.append_nil _).symm⟩
  | none => exact ⟨_, rfl⟩

theorem receiver_run_docs_extension (sid : String) (blobs : List String) :
    ∀ st : ReceiverState,
      ∃ e, ((receiver_process_session_documents sid blobs st).1).docs = st.docs ++ e := by
  induction blobs with
  | nil => exact fun st => ⟨[], (List.append_nil _).symm⟩
  | cons b rest ih =>
    intro st
    obtain ⟨e1, he1⟩ := receiver_process_blob_docs_extension sid st b
    obtain ⟨e2, he2⟩ := ih (receiver_process_blob sid st b).1
    refine ⟨e1 ++ e2, ?_⟩
    show ((receiver_process_session_documents sid rest (receiver_process_blob sid st b).1).1).docs
        = st.docs ++ (e1 ++ e2)
    rw [he2, he1, List.append_assoc]

theorem receiver_process_blob_of_exists (sid : String) (st : ReceiverState) (b : String)
    (h : (findExistingDocument st.docs (basename b) sid
        (receiver_get_generic_doc_type (basename b))).isSome = true) :
    (receiver_process_blob sid st b).1 = st
    ∧ (receiver_process_blob sid st b).2.status = "exists" := by
  obtain ⟨d, hd⟩ := Option.isSome_iff_exists.mp h
  unfold receiver_process_blob
  dsimp only
  rw [hd]
  exact ⟨rfl, rfl⟩

theorem receiver_process_blob_establishes (sid : String) (st : ReceiverState) (b : String) :
    (findExistingDocument ((receiver_process_blob sid st b).1).docs (basename b) sid
      (receiver_get_generic_doc_type (basename b))).isSome = true := by
  unfold receiver_process_blob
  dsimp only
  cases h : findExistingDocument st.docs (basename b) sid
      (receiver_get_generic_doc_type (basename b)) with
  | some d =>
    dsimp only
    rw [h]
    rfl
  | none =>
    dsimp only
    unfold findExistingDocument at h ⊢
    rw [List.find?_append, h, Option.none_or, List.find?_cons_of_pos _ (by simp)]
    rfl

theorem receiver_run_establishes_all (sid : String) (blobs : List String) :
    ∀ st : ReceiverState, ∀ b ∈ blobs,
      (findExistingDocument ((receiver_process_session_documents sid blobs st).1).docs
        (basename b) sid (receiver_get_generic_doc_type (basename b))).isSome = true := by
  induction blobs with
  | nil => intro st b hb; exact absurd hb (List.not_mem_nil b)
  | cons b0 rest ih =>
    intro st b hb
    have hfin : (receiver_process_session_documents sid (b0 :: rest) st).1
        = (receiver_process_session_documents sid rest (receiver_process_blob sid st b0).1).1 :=
      rfl
    rw [hfin]
    rcases List.mem_cons.mp hb with rfl | hbr
    · obtain ⟨e, he⟩ := receiver_run_docs_extension sid rest (receiver_process_blob sid st b).1
      rw [he]
      exact findExistingDocument_append_isSome _ e _ _ _
        (receiver_process_blob_establishes sid st b)
    · exact ih (receiver_process_blob sid st b0).1 b hbr

theorem receiver_run_all_exists (sid : String) (blobs : List String) :
    ∀ st : ReceiverState,
      (∀ b ∈ blobs, (findExistingDocument st.docs (basename b) sid
        (receiver_get_generic_doc_type (basename b))).isSome = true) →
      (receiver_process_session_documents sid blobs st).1 = st
      ∧ ∀ r ∈ (receiver_process_session_documents sid blobs st).2, r.status = "exists" := by
  induction blobs with
  | nil => exact fun st _ => ⟨rfl, fun r hr => absurd hr (List.not_mem_nil r)⟩
  | cons b rest ih =>
    intro st h
    obtain ⟨hst, hres⟩ :=
      receiver_process_blob_of_exists sid st b (h b (List.mem_cons_self b rest))
    have hrest := fun b' hb' => h b' (List.mem_cons_of_mem b hb')
    have hsteprest : (∀ b' ∈ rest,
        (findExistingDocument ((receiver_process_blob sid st b).1).docs (basename b') sid
          (receiver_get_generic_doc_type (basename b'))).isSome = true) := by
      rw [hst]
      exact hrest
    obtain ⟨ih1, ih2⟩ := ih (receiver_process_blob sid st b).1 hsteprest
    constructor
    · show (receiver_process_session_documents sid rest (receiver_process_blob sid st b).1).1 = st
      rw [ih1, hst]
    · intro r hr
      have hsplit : (receiver_process_session_documents sid (b :: rest) st).2
          = (receiver_process_blob sid st b).2 ::
            (receiver_process_session_documents sid rest (receiver_process_blob sid st b).1).2 :=
        rfl
      rw [hsplit] at hr
      rcases List.mem_cons.mp hr with rfl | hrr
      · exact hres
      · exact ih2 r hrr

/-- C7: ingestion is idempotent: running the receiver a second time over the
same blob listing changes no database row, creates no record, and reports
status `exists` for every blob. -/
theorem C7_ingestion_idempotent (sid : String) (blobs : List String) (st : ReceiverState) :
    (receiver_process_session_documents sid blobs
        (receiver_process_session_documents sid blobs st).1).1
      = (receiver_process_session_documents sid blobs st).1
    ∧ ∀ r ∈ (receiver_process_session_documents sid blobs
        (receiver_process_session_documents sid blobs st).1).2, r.status = "exists" :=
  receiver_run_all_exists sid blobs _ (receiver_run_establishes_all sid blobs st)
